import Mathlib

/-!
Shallow embedding of `citationChecker.py` (citation hallucination checker).

Text is modelled as `List Char`.  The five citation regexes are embedded as
deterministic matchers (each regex is deterministic at a fixed start position:
every greedy piece is followed by a piece that cannot match the characters the
greedy piece consumes, so backtracking never changes the outcome).  The regex
character classes `\s`, `\d`, `\w` are modelled by their ASCII parts, and
`str.lower` / `str.upper` by ASCII case mapping, which agrees with Python on
every character the matchers can produce.
-/

namespace CitationChecker

abbrev Str := List Char

def isUpperAZ (c : Char) : Bool := ('A' ≤ c) && (c ≤ 'Z')

def isLowerAZ (c : Char) : Bool := ('a' ≤ c) && (c ≤ 'z')

def isDigit09 (c : Char) : Bool := ('0' ≤ c) && (c ≤ '9')

def isSpaceCh (c : Char) : Bool :=
  (c = ' ') || (c = '\t') || (c = '\n') || (c = '\r') || (c = '\x0b') || (c = '\x0c')

def isWordCh (c : Char) : Bool := isUpperAZ c || isLowerAZ c || isDigit09 c || (c = '_')

/-- ASCII lower-casing of one character (`str.lower` on the ASCII range). -/
def lowerCh (c : Char) : Char := if isUpperAZ c then Char.ofNat (c.toNat + 32) else c

/-- ASCII upper-casing of one character (`str.upper` on the ASCII range). -/
def upperCh (c : Char) : Char := if isLowerAZ c then Char.ofNat (c.toNat - 32) else c

def lowerStr (s : Str) : Str := s.map lowerCh

def upperStr (s : Str) : Str := s.map upperCh

/-- Python's `needle in hay` substring test. -/
def containsSub (needle : Str) : Str → Bool
  | [] => needle.isPrefixOf ([] : Str)
  | c :: rest => needle.isPrefixOf (c :: rest) || containsSub needle rest

/-- One raw regex match: the matched substring plus the two capture groups. -/
structure RawMatch where
  text : Str
  author : Str
  year : Str
deriving Repr, DecidableEq

/-- Word boundary `\b` just before an `[A-Z]` character: the previous character (if any)
must not be a word character. -/
def wordBoundaryOk (prev : Option Char) : Bool :=
  match prev with
  | none => true
  | some c => !(isWordCh c)

/-- Author capture `([A-Z][a-z]+)`: one upper-case letter followed by one or more lower-case
letters, greedily. -/
def matchAuthor : Str → Option (Str × Str)
  | [] => none
  | c :: rest =>
    if isUpperAZ c then
      let low := rest.takeWhile isLowerAZ
      if low.isEmpty then none else some (c :: low, rest.dropWhile isLowerAZ)
    else none

/-- Regex `\s+`: one or more whitespace characters, greedily. -/
def matchSpaces1 (s : Str) : Option (Str × Str) :=
  let sp := s.takeWhile isSpaceCh
  if sp.isEmpty then none else some (sp, s.dropWhile isSpaceCh)

/-- Regex `\s*`: any number of whitespace characters, greedily. -/
def takeSpacesPair (s : Str) : Str × Str := (s.takeWhile isSpaceCh, s.dropWhile isSpaceCh)

/-- Regex `\.?`: an optional literal dot. -/
def matchOptDot : Str → Str × Str
  | [] => ([], [])
  | c :: r => if c = '.' then (['.'], r) else ([], c :: r)

/-- A literal string: returns the remainder after the literal. -/
def stripLit (lit s : Str) : Option Str :=
  if lit.isPrefixOf s then some (s.drop lit.length) else none

/-- Year capture `(\d{4}[a-z]?)\)`: exactly four digits, an optional lower-case
disambiguation letter, then a closing parenthesis.  Returns the captured year
and the remainder after the parenthesis. -/
def matchYearParen : Str → Option (Str × Str)
  | d1 :: d2 :: d3 :: d4 :: rest =>
    if isDigit09 d1 && isDigit09 d2 && isDigit09 d3 && isDigit09 d4 then
      match rest with
      | [] => none
      | c :: r =>
        if c = ')' then some ([d1, d2, d3, d4], r)
        else
          match r with
          | [] => none
          | c2 :: r2 =>
            if isLowerAZ c && (c2 = ')') then some ([d1, d2, d3, d4, c], r2) else none
    else none
  | _ => none

/-- Pattern 1: `\b([A-Z][a-z]+)\s+et\s+al\.?\s*\((\d{4}[a-z]?)\)`. -/
def tryPattern1 (prev : Option Char) (s : Str) : Option (RawMatch × Str) :=
  if wordBoundaryOk prev then
    (matchAuthor s).bind fun ar =>
      (matchSpaces1 ar.2).bind fun sp1 =>
        (stripLit ['e', 't'] sp1.2).bind fun r3 =>
          (matchSpaces1 r3).bind fun sp2 =>
            (stripLit ['a', 'l'] sp2.2).bind fun r5 =>
              (stripLit ['('] (takeSpacesPair (matchOptDot r5).2).2).bind fun r8 =>
                (matchYearParen r8).bind fun yr =>
                  some (⟨ar.1 ++ sp1.1 ++ ['e', 't'] ++ sp2.1 ++ ['a', 'l'] ++
                          (matchOptDot r5).1 ++ (takeSpacesPair (matchOptDot r5).2).1 ++
                          ['('] ++ yr.1 ++ [')'], ar.1, yr.1⟩, yr.2)
  else none

/-- Pattern 2: `\b([A-Z][a-z]+)\s+&\s+[A-Z][a-z]+\s*\((\d{4}[a-z]?)\)`. -/
def tryPattern2 (prev : Option Char) (s : Str) : Option (RawMatch × Str) :=
  if wordBoundaryOk prev then
    (matchAuthor s).bind fun ar =>
      (matchSpaces1 ar.2).bind fun sp1 =>
        (stripLit ['&'] sp1.2).bind fun r3 =>
          (matchSpaces1 r3).bind fun sp2 =>
            (matchAuthor sp2.2).bind fun ar2 =>
              (stripLit ['('] (takeSpacesPair ar2.2).2).bind fun r7 =>
                (matchYearParen r7).bind fun yr =>
                  some (⟨ar.1 ++ sp1.1 ++ ['&'] ++ sp2.1 ++ ar2.1 ++
                          (takeSpacesPair ar2.2).1 ++ ['('] ++ yr.1 ++ [')'],
                         ar.1, yr.1⟩, yr.2)
  else none

/-- Pattern 3: `\b([A-Z][a-z]+)\s*\((\d{4}[a-z]?)\)`. -/
def tryPattern3 (prev : Option Char) (s : Str) : Option (RawMatch × Str) :=
  if wordBoundaryOk prev then
    (matchAuthor s).bind fun ar =>
      (stripLit ['('] (takeSpacesPair ar.2).2).bind fun r3 =>
        (matchYearParen r3).bind fun yr =>
          some (⟨ar.1 ++ (takeSpacesPair ar.2).1 ++ ['('] ++ yr.1 ++ [')'], ar.1, yr.1⟩,
                yr.2)
  else none

/-- Pattern 4: `\(([A-Z][a-z]+)\s+et\s+al\.?,\s*(\d{4}[a-z]?)\)`. -/
def tryPattern4 (_prev : Option Char) (s : Str) : Option (RawMatch × Str) :=
  (stripLit ['('] s).bind fun r0 =>
    (matchAuthor r0).bind fun ar =>
      (matchSpaces1 ar.2).bind fun sp1 =>
        (stripLit ['e', 't'] sp1.2).bind fun r3 =>
          (matchSpaces1 r3).bind fun sp2 =>
            (stripLit ['a', 'l'] sp2.2).bind fun r5 =>
              (stripLit [','] (matchOptDot r5).2).bind fun r7 =>
                (matchYearParen (takeSpacesPair r7).2).bind fun yr =>
                  some (⟨['('] ++ ar.1 ++ sp1.1 ++ ['e', 't'] ++ sp2.1 ++ ['a', 'l'] ++
                          (matchOptDot r5).1 ++ [','] ++ (takeSpacesPair r7).1 ++
                          yr.1 ++ [')'], ar.1, yr.1⟩, yr.2)

/-- Pattern 5: `\(([A-Z][a-z]+),\s*(\d{4}[a-z]?)\)`. -/
def tryPattern5 (_prev : Option Char) (s : Str) : Option (RawMatch × Str) :=
  (stripLit ['('] s).bind fun r0 =>
    (matchAuthor r0).bind fun ar =>
      (stripLit [','] ar.2).bind fun r2 =>
        (matchYearParen (takeSpacesPair r2).2).bind fun yr =>
          some (⟨['('] ++ ar.1 ++ [','] ++ (takeSpacesPair r2).1 ++ yr.1 ++ [')'],
                 ar.1, yr.1⟩, yr.2)

/-- The five citation regexes, in registration order (`self.citation_patterns`). -/
def citation_patterns : List (Option Char → Str → Option (RawMatch × Str)) :=
  [tryPattern1, tryPattern2, tryPattern3, tryPattern4, tryPattern5]

/-- Python's `re.finditer`: scan left to right, emitting non-overlapping matches.  The
fuel argument only serves termination; it is initialised to the text length,
which always suffices since every match consumes at least one character. -/
def scanFuel (pat : Option Char → Str → Option (RawMatch × Str)) :
    Nat → Option Char → Str → List RawMatch
  | 0, _, _ => []
  | _ + 1, _, [] => []
  | fuel + 1, prev, c :: rest =>
    match pat prev (c :: rest) with
    | some (m, r) => m :: scanFuel pat fuel m.text.getLast? r
    | none => scanFuel pat fuel (some c) rest

def finditer (pat : Option Char → Str → Option (RawMatch × Str)) (s : Str) :
    List RawMatch :=
  scanFuel pat s.length none s

/-- All raw matches of all five patterns, in pattern-major order (the nested
`for pattern ... for match ...` loops). -/
def rawMatches (text : Str) : List RawMatch :=
  citation_patterns.flatMap (fun p => finditer p text)

/-- The canonical key as a function of author, year and the "et al." flag. -/
def normalizeKey (author year : Str) (etAl : Bool) : Str :=
  if etAl then author ++ (" et al. (".toList) ++ year ++ [')']
  else author ++ (" (".toList) ++ year ++ [')']

/-- The test `'et al' in citation_text.lower()`. -/
def etAlFlag (text : Str) : Bool := containsSub ("et al".toList) (lowerStr text)

def normalizeOf (m : RawMatch) : Str := normalizeKey m.author m.year (etAlFlag m.text)

/-- One extraction record `{text, normalized, author, year}`. -/
structure CitationRecord where
  text : Str
  normalized : Str
  author : Str
  year : Str
deriving Repr, DecidableEq

def recordOf (m : RawMatch) : CitationRecord :=
  ⟨m.text, normalizeOf m, m.author, m.year⟩

/-- The dedup loop of `extract_citations`: first occurrence of a normalized
key wins, later hits are discarded. -/
def dedupAux : List Str → List RawMatch → List CitationRecord
  | _, [] => []
  | seen, m :: ms =>
    let n := normalizeOf m
    if seen.contains n then dedupAux seen ms
    else recordOf m :: dedupAux (n :: seen) ms

/-- Python's `CitationChecker.extract_citations`. -/
def extract_citations (text : Str) : List CitationRecord :=
  dedupAux [] (rawMatches text)

/-- Python's `_extract_citations_from_file`, applied to the file's content: every raw
match contributes BOTH the "et al." form and the plain form.  The Python
function accumulates into a set; only membership in the result is ever used,
so a list models it. -/
def extract_citations_from_file (content : Str) : List Str :=
  (rawMatches content).flatMap (fun m =>
    [m.author ++ " et al. (".toList ++ m.year ++ [')'],
     m.author ++ " (".toList ++ m.year ++ [')']])

/-- Python's `_extract_verified_from_review`, applied to the file's content: the
source is scanned only if it contains the approval glyph and, case
insensitively, "VERIFIED"; otherwise it contributes nothing. -/
def extract_verified_from_review (content : Str) : List Str :=
  if containsSub ['✅'] content && containsSub ("VERIFIED".toList) (upperStr content) then
    extract_citations_from_file content
  else []

/-- One entry of a severity bucket of the structured suspicious list: a
free-text `line` and an optional `reason`. -/
structure SuspEntry where
  line : Str
  reason : Option Str
deriving Repr, DecidableEq

/-- Python-dict insertion: last write wins.  The model prepends, and lookup
returns the most recent binding. -/
def dictInsert (d : List (Str × Str)) (k v : Str) : List (Str × Str) := (k, v) :: d

/-- Python-dict key lookup (`d.get(k)`), returning the most recent binding. -/
def lookupMap : List (Str × Str) → Str → Option Str
  | [], _ => none
  | (k, v) :: rest, key => if k = key then some v else lookupMap rest key

/-- Python-dict key membership (`k in d`). -/
def containsKey (d : List (Str × Str)) (k : Str) : Bool := (lookupMap d k).isSome

/-- Identifier pattern `arXiv:(\d+\.\d+)`: the literal scheme prefix, then one or more digits, a
dot, and one or more digits.  Returns the captured identifier and the
remainder. -/
def matchArxiv (s : Str) : Option (Str × Str) := do
  let r0 ← stripLit "arXiv:".toList s
  let d1 := r0.takeWhile isDigit09
  if d1.isEmpty then none else
    let r1 := r0.dropWhile isDigit09
    let r2 ← stripLit ['.'] r1
    let d2 := r2.takeWhile isDigit09
    if d2.isEmpty then none else
      some (d1 ++ ['.'] ++ d2.takeWhile isDigit09, r2.dropWhile isDigit09)

/-- Python's `re.finditer` for the arXiv identifier pattern (fuel as in `scanFuel`). -/
def arxivScanFuel : Nat → Str → List Str
  | 0, _ => []
  | _ + 1, [] => []
  | fuel + 1, c :: rest =>
    match matchArxiv (c :: rest) with
    | some (id, r) => id :: arxivScanFuel fuel r
    | none => arxivScanFuel fuel rest

def findArxiv (content : Str) : List Str := arxivScanFuel content.length content

/-- Inserting both normalized forms of one raw match under one reason (the
body of the per-match loops in `_load_suspicious_citations`). -/
def insertBothForms (d : List (Str × Str)) (m : RawMatch) (reason : Str) :
    List (Str × Str) :=
  dictInsert (dictInsert d (m.author ++ " et al. (".toList ++ m.year ++ [')']) reason)
    (m.author ++ " (".toList ++ m.year ++ [')']) reason

def fabricatedReason : Str := "FABRICATED - See COMMONLY_HALLUCINATED_CITATIONS.md".toList

def arxivReason : Str := "FABRICATED arXiv ID (404)".toList

def unknownReason : Str := "Unknown reason".toList

/-- Python's `_load_suspicious_citations`, applied to the parsed structured record
(`high ++ medium` entries) and the optional fabrication-list content.  File
discovery and JSON parsing are the external collaborators; a missing or
unreadable source is the `none` / empty case. -/
def load_suspicious_citations (entries : List SuspEntry) (fabricated : Option Str) :
    List (Str × Str) :=
  let step1 := entries.foldl (fun d e =>
    (rawMatches e.line).foldl (fun d m =>
      insertBothForms d m (e.reason.getD unknownReason)) d) []
  match fabricated with
  | none => step1
  | some content =>
    let step2 := (rawMatches content).foldl
      (fun d m => insertBothForms d m fabricatedReason) step1
    (findArxiv content).foldl
      (fun d id => dictInsert d ("arXiv:".toList ++ id) arxivReason) step2

/-- The two lookup structures a `CitationChecker` instance owns. -/
structure CheckerState where
  verified_citations : List Str
  suspicious_citations : List (Str × Str)
deriving Repr

/-- Python's `_get_status`: the 2x2 status precedence matrix. -/
def get_status (verified suspicious : Bool) : Str :=
  if verified && !suspicious then "✅ VERIFIED".toList
  else if verified && suspicious then "⚠️ VERIFIED BUT FLAGGED".toList
  else if suspicious then "❌ SUSPICIOUS".toList
  else "❓ UNVERIFIED".toList

/-- The record `verify_citation` returns. -/
structure VerificationResult where
  citation : Str
  verified : Bool
  suspicious : Bool
  suspicious_reason : Option Str
  status : Str
deriving Repr, DecidableEq

/-- Python's `CitationChecker.verify_citation`: exact-string membership in the two
lookup structures. -/
def verify_citation (st : CheckerState) (citation : Str) : VerificationResult :=
  let is_verified := st.verified_citations.contains citation
  let is_suspicious := containsKey st.suspicious_citations citation
  { citation := citation
    verified := is_verified
    suspicious := is_suspicious
    suspicious_reason := lookupMap st.suspicious_citations citation
    status := get_status is_verified is_suspicious }

/-- A verification result with the extraction fields `check_text` attaches. -/
structure ResultRow extends VerificationResult where
  original_text : Str
  author : Str
  year : Str
deriving Repr, DecidableEq

/-- The aggregate report `check_text` returns. -/
structure CheckReport where
  citations_found : Nat
  verified : Nat
  suspicious : Nat
  unverified : Nat
  results : List ResultRow
  all_verified : Bool
deriving Repr

/-- Python's `CitationChecker.check_text`. -/
def check_text (st : CheckerState) (text : Str) : CheckReport :=
  let citations := extract_citations text
  let results := citations.map (fun c =>
    ⟨verify_citation st c.normalized, c.text, c.author, c.year⟩)
  let verified_count := results.countP (fun r => r.verified)
  let suspicious_count := results.countP (fun r => r.suspicious)
  let unverified_count := results.countP (fun r => !r.verified && !r.suspicious)
  { citations_found := results.length
    verified := verified_count
    suspicious := suspicious_count
    unverified := unverified_count
    results := results
    all_verified := (unverified_count == 0) && (suspicious_count == 0) }

/-! ### Character-class facts -/

lemma toNat_ofNat_valid (n : Nat) (h : n.isValidChar) : (Char.ofNat n).toNat = n := by
  simp only [Char.ofNat, h, dite_true, Char.ofNatAux, Char.toNat]
  rfl

lemma upper_toNat {c : Char} (h : isUpperAZ c = true) : 65 ≤ c.toNat ∧ c.toNat ≤ 90 := by
  simp only [isUpperAZ, Bool.and_eq_true, decide_eq_true_eq, Char.le_def] at h
  exact h

lemma lower_toNat {c : Char} (h : isLowerAZ c = true) : 97 ≤ c.toNat ∧ c.toNat ≤ 122 := by
  simp only [isLowerAZ, Bool.and_eq_true, decide_eq_true_eq, Char.le_def] at h
  exact h

lemma digit_toNat {c : Char} (h : isDigit09 c = true) : 48 ≤ c.toNat ∧ c.toNat ≤ 57 := by
  simp only [isDigit09, Bool.and_eq_true, decide_eq_true_eq, Char.le_def] at h
  exact h

lemma lowerCh_of_not_upper {c : Char} (h : isUpperAZ c = false) : lowerCh c = c := by
  simp [lowerCh, h]

lemma lowerCh_toNat_of_upper {c : Char} (h : isUpperAZ c = true) :
    (lowerCh c).toNat = c.toNat + 32 := by
  obtain ⟨h1, h2⟩ := upper_toNat h
  simp only [lowerCh, h, if_true]
  exact toNat_ofNat_valid _ (Or.inl (by omega))

lemma lowerCh_ne_space {c : Char} (h : isUpperAZ c = true) : lowerCh c ≠ ' ' := by
  intro heq
  have h2 := lowerCh_toNat_of_upper h
  rw [heq] at h2
  have h3 : (' ' : Char).toNat = 32 := rfl
  obtain ⟨h4, _⟩ := upper_toNat h
  omega

lemma lower_ne_space {c : Char} (h : isLowerAZ c = true) : c ≠ ' ' := by
  intro heq; subst heq; exact absurd h (by decide)

lemma digit_ne_space {c : Char} (h : isDigit09 c = true) : c ≠ ' ' := by
  intro heq; subst heq; exact absurd h (by decide)

lemma lower_not_upper {c : Char} (h : isLowerAZ c = true) : isUpperAZ c = false := by
  rcases hu : isUpperAZ c with _ | _
  · rfl
  · obtain ⟨h1, h2⟩ := upper_toNat hu
    obtain ⟨h3, h4⟩ := lower_toNat h
    omega

lemma digit_not_upper {c : Char} (h : isDigit09 c = true) : isUpperAZ c = false := by
  rcases hu : isUpperAZ c with _ | _
  · rfl
  · obtain ⟨h1, h2⟩ := upper_toNat hu
    obtain ⟨h3, h4⟩ := digit_toNat h
    omega

lemma lower_ne_lparen {c : Char} (h : isLowerAZ c = true) : c ≠ '(' := by
  intro heq; subst heq; exact absurd h (by decide)

lemma digit_ne_lparen {c : Char} (h : isDigit09 c = true) : c ≠ '(' := by
  intro heq; subst heq; exact absurd h (by decide)

lemma lower_ne_rparen {c : Char} (h : isLowerAZ c = true) : c ≠ ')' := by
  intro heq; subst heq; exact absurd h (by decide)

lemma upper_ne_lparen {c : Char} (h : isUpperAZ c = true) : c ≠ '(' := by
  intro heq; subst heq; exact absurd h (by decide)

/-! ### List helpers -/

lemma takeWhile_all_append {p : Char → Bool} {u : Str} (x : Char) (r : Str)
    (hu : ∀ c ∈ u, p c = true) (hx : p x = false) :
    (u ++ x :: r).takeWhile p = u ∧ (u ++ x :: r).dropWhile p = x :: r := by
  induction u with
  | nil => simp [List.takeWhile, List.dropWhile, hx]
  | cons c u ih =>
    have hc : p c = true := hu c (by simp)
    have := ih (fun d hd => hu d (by simp [hd]))
    simp [List.takeWhile, List.dropWhile, hc, this.1, this.2]

lemma isPrefixOf_mem {l s : Str} (h : l.isPrefixOf s = true) : ∀ x ∈ l, x ∈ s := by
  induction l generalizing s with
  | nil => simp
  | cons c l ih =>
    cases s with
    | nil => simp [List.isPrefixOf] at h
    | cons d s =>
      simp only [List.isPrefixOf, Bool.and_eq_true, beq_iff_eq] at h
      intro x hx
      rcases List.mem_cons.mp hx with rfl | hx
      · simp [h.1]
      · exact List.mem_cons_of_mem _ (ih h.2 x hx)

lemma containsSub_append_of_isPrefixOf {n v : Str} (u : Str)
    (h : n.isPrefixOf v = true) : containsSub n (u ++ v) = true := by
  induction u with
  | nil =>
    cases v with
    | nil => exact h
    | cons c r => simp [containsSub, h]
  | cons c u ih => simp [containsSub, ih]

/-- A needle containing a space cannot occur in a space-free haystack. -/
lemma containsSub_eq_false_of_no_space {n hay : Str} (hn : ' ' ∈ n)
    (h : ∀ c ∈ hay, c ≠ ' ') : containsSub n hay = false := by
  induction hay with
  | nil =>
    cases n with
    | nil => simp at hn
    | cons c r => simp [containsSub, List.isPrefixOf]
  | cons c rest ih =>
    have h1 : n.isPrefixOf (c :: rest) = false := by
      rcases hp : n.isPrefixOf (c :: rest) with _ | _
      · rfl
      · exact absurd rfl (h _ (isPrefixOf_mem hp _ hn))
    simp [containsSub, h1]
    exact ih (fun d hd => h d (by simp [hd]))

lemma etal_toList : "et al".toList = ['e', 't', ' ', 'a', 'l'] := rfl

/-- The needle `"et al"` is never a prefix at a position whose first space is
immediately followed by `'('`. -/
lemma etal_not_isPrefixOf {u : Str} (w : Str) (hu : ∀ c ∈ u, c ≠ ' ') :
    List.isPrefixOf ['e', 't', ' ', 'a', 'l'] (u ++ ' ' :: '(' :: w) = false := by
  rcases u with _ | ⟨c, _ | ⟨d, _ | ⟨e, u'⟩⟩⟩
  · simp [List.isPrefixOf]
  · simp [List.isPrefixOf]
  · simp [List.isPrefixOf]
  · rcases hp : List.isPrefixOf ['e', 't', ' ', 'a', 'l'] ((c :: d :: e :: u') ++ ' ' :: '(' :: w)
      with _ | _
    · rfl
    · exfalso
      simp only [List.cons_append, List.isPrefixOf, Bool.and_eq_true, beq_iff_eq] at hp
      exact hu e (by simp) hp.2.2.1.symm

/-- The needle `"et al"` does not occur in `u ++ " ("` ++ `w` when `u` and `w` are
space-free. -/
lemma etal_not_containsSub {u w : Str} (hu : ∀ c ∈ u, c ≠ ' ')
    (hw : ∀ c ∈ w, c ≠ ' ') :
    containsSub ['e', 't', ' ', 'a', 'l'] (u ++ ' ' :: '(' :: w) = false := by
  induction u with
  | nil =>
    rw [List.nil_append, containsSub, containsSub]
    have h1 := etal_not_isPrefixOf (u := []) w (by simp)
    rw [List.nil_append] at h1
    rw [h1]
    have h2 : List.isPrefixOf ['e', 't', ' ', 'a', 'l'] ('(' :: w) = false := by
      simp [List.isPrefixOf]
    rw [h2]
    simp only [Bool.false_or]
    exact containsSub_eq_false_of_no_space (by simp) hw
  | cons c u ih =>
    rw [List.cons_append, containsSub]
    have h1 := etal_not_isPrefixOf (u := c :: u) w hu
    rw [List.cons_append] at h1
    rw [h1]
    simp only [Bool.false_or]
    exact ih (fun d hd => hu d (by simp [hd]))

/-! ### Suffix (scan-position) machinery -/

/-- Predicate: `suf` is a suffix of `s`, i.e. a scan position of `s`. -/
def IsTail (suf s : Str) : Prop := ∃ pre, s = pre ++ suf

lemma isTail_refl (s : Str) : IsTail s s := ⟨[], rfl⟩

lemma isTail_cons {suf : Str} {c : Char} {t : Str} (h : IsTail suf (c :: t)) :
    suf = c :: t ∨ IsTail suf t := by
  obtain ⟨pre, hpre⟩ := h
  cases pre with
  | nil => exact Or.inl (by simpa using hpre.symm)
  | cons d pre =>
    injection hpre with h1 h2
    exact Or.inr ⟨pre, h2⟩

lemma isTail_of_tail {suf : Str} (c : Char) {t : Str} (h : IsTail suf t) :
    IsTail suf (c :: t) := by
  obtain ⟨pre, hpre⟩ := h
  exact ⟨c :: pre, by simp [hpre]⟩

lemma isTail_append_cases {u v suf : Str} (h : IsTail suf (u ++ v)) :
    (∃ c u', suf = c :: (u' ++ v) ∧ c ∈ u) ∨ IsTail suf v := by
  induction u with
  | nil => exact Or.inr (by simpa using h)
  | cons c u ih =>
    rcases isTail_cons (by simpa using h) with heq | ht
    · exact Or.inl ⟨c, u, by simpa using heq, by simp⟩
    · rcases ih ht with ⟨d, u', heq, hd⟩ | hv
      · exact Or.inl ⟨d, u', heq, by simp [hd]⟩
      · exact Or.inr hv

/-! ### Scanner lemmas -/

lemma scanFuel_nil (pat : Option Char → Str → Option (RawMatch × Str))
    (fuel : Nat) (prev : Option Char) : scanFuel pat fuel prev [] = [] := by
  cases fuel <;> rfl

lemma finditer_single {pat : Option Char → Str → Option (RawMatch × Str)}
    {c : Char} {t : Str} {m : RawMatch} (h : pat none (c :: t) = some (m, [])) :
    finditer pat (c :: t) = [m] := by
  show scanFuel pat (t.length + 1) none (c :: t) = [m]
  rw [scanFuel, h]
  show m :: scanFuel pat t.length m.text.getLast? [] = [m]
  rw [scanFuel_nil]

lemma scanFuel_none {pat : Option Char → Str → Option (RawMatch × Str)} :
    ∀ (fuel : Nat) (prev : Option Char) {s : Str},
      (∀ prev' suf, IsTail suf s → suf ≠ [] → pat prev' suf = none) →
      scanFuel pat fuel prev s = [] := by
  intro fuel
  induction fuel with
  | zero => intro prev s _; rfl
  | succ n ih =>
    intro prev s h
    cases s with
    | nil => rfl
    | cons c rest =>
      rw [scanFuel, h prev (c :: rest) (isTail_refl _) (by simp)]
      exact ih _ (fun prev' suf hsuf hne => h prev' suf (isTail_of_tail c hsuf) hne)

lemma finditer_none {pat : Option Char → Str → Option (RawMatch × Str)} {s : Str}
    (h : ∀ prev suf, IsTail suf s → suf ≠ [] → pat prev suf = none) :
    finditer pat s = [] :=
  scanFuel_none _ _ h

lemma mem_scanFuel {pat : Option Char → Str → Option (RawMatch × Str)} :
    ∀ {fuel : Nat} {prev : Option Char} {s : Str} {m : RawMatch},
      m ∈ scanFuel pat fuel prev s → ∃ prev' s' r, pat prev' s' = some (m, r) := by
  intro fuel
  induction fuel with
  | zero => intro prev s m h; simp [scanFuel] at h
  | succ n ih =>
    intro prev s m h
    cases s with
    | nil => simp [scanFuel] at h
    | cons c rest =>
      rw [scanFuel] at h
      rcases hpat : pat prev (c :: rest) with _ | ⟨m', r⟩
      · rw [hpat] at h
        exact ih h
      · rw [hpat] at h
        rcases List.mem_cons.mp h with rfl | h
        · exact ⟨prev, c :: rest, r, hpat⟩
        · exact ih h

lemma mem_finditer {pat : Option Char → Str → Option (RawMatch × Str)} {s : Str}
    {m : RawMatch} (h : m ∈ finditer pat s) : ∃ prev' s' r, pat prev' s' = some (m, r) :=
  mem_scanFuel h

/-! ### Canonical-shape predicates and matcher evaluation lemmas -/

/-- The author token shape `[A-Z][a-z]+`. -/
def goodAuthor : Str → Bool
  | [] => false
  | c :: cs => isUpperAZ c && !cs.isEmpty && cs.all isLowerAZ

/-- The year token shape `\d{4}[a-z]?`. -/
def goodYear : Str → Bool
  | [d1, d2, d3, d4] => isDigit09 d1 && isDigit09 d2 && isDigit09 d3 && isDigit09 d4
  | [d1, d2, d3, d4, l] =>
    isDigit09 d1 && isDigit09 d2 && isDigit09 d3 && isDigit09 d4 && isLowerAZ l
  | _ => false

lemma matchAuthor_eq {c : Char} {cs : Str} (b : Char) (r : Str)
    (hc : isUpperAZ c = true) (hcs : ∀ x ∈ cs, isLowerAZ x = true)
    (hne : cs ≠ []) (hb : isLowerAZ b = false) :
    matchAuthor (c :: (cs ++ b :: r)) = some (c :: cs, b :: r) := by
  obtain ⟨ht, hd⟩ := takeWhile_all_append (p := isLowerAZ) b r hcs hb
  simp [matchAuthor, hc, ht, hd, List.isEmpty_iff, hne]

lemma matchSpaces1_single (b : Char) (r : Str) (hb : isSpaceCh b = false) :
    matchSpaces1 (' ' :: (b :: r)) = some ([' '], b :: r) := by
  obtain ⟨ht, hd⟩ := takeWhile_all_append (p := isSpaceCh) (u := [' ']) b r (by simp [isSpaceCh]) hb
  simp only [List.cons_append, List.nil_append] at ht hd
  simp [matchSpaces1, ht, hd]

lemma takeSpacesPair_single (b : Char) (r : Str) (hb : isSpaceCh b = false) :
    takeSpacesPair (' ' :: (b :: r)) = ([' '], b :: r) := by
  obtain ⟨ht, hd⟩ := takeWhile_all_append (p := isSpaceCh) (u := [' ']) b r (by simp [isSpaceCh]) hb
  simp only [List.cons_append, List.nil_append] at ht hd
  simp [takeSpacesPair, ht, hd]

lemma matchYearParen_eq {y : Str} (h : goodYear y = true) :
    matchYearParen (y ++ [')']) = some (y, []) := by
  rcases y with _ | ⟨d1, _ | ⟨d2, _ | ⟨d3, _ | ⟨d4, _ | ⟨l, _ | ⟨x, rest⟩⟩⟩⟩⟩⟩
  · simp [goodYear] at h
  · simp [goodYear] at h
  · simp [goodYear] at h
  · simp [goodYear] at h
  · simp only [goodYear, Bool.and_eq_true] at h
    simp [matchYearParen, h.1.1.1, h.1.1.2, h.1.2, h.2]
  · simp only [goodYear, Bool.and_eq_true] at h
    have hl : l ≠ ')' := lower_ne_rparen h.2
    simp [matchYearParen, h.1.1.1.1, h.1.1.1.2, h.1.1.2, h.1.2, h.2, hl]
  · simp [goodYear] at h

/-! ### Quick-failure lemmas for patterns at non-candidate positions -/

lemma matchAuthor_none {c : Char} (r : Str) (h : isUpperAZ c = false) :
    matchAuthor (c :: r) = none := by
  simp [matchAuthor, h]

lemma tryPattern1_none_head {prev : Option Char} {c : Char} (r : Str)
    (h : isUpperAZ c = false) : tryPattern1 prev (c :: r) = none := by
  unfold tryPattern1
  split
  · rw [matchAuthor_none r h]; rfl
  · rfl

lemma tryPattern2_none_head {prev : Option Char} {c : Char} (r : Str)
    (h : isUpperAZ c = false) : tryPattern2 prev (c :: r) = none := by
  unfold tryPattern2
  split
  · rw [matchAuthor_none r h]; rfl
  · rfl

lemma tryPattern3_none_head {prev : Option Char} {c : Char} (r : Str)
    (h : isUpperAZ c = false) : tryPattern3 prev (c :: r) = none := by
  unfold tryPattern3
  split
  · rw [matchAuthor_none r h]; rfl
  · rfl

lemma stripLit_lparen_none {c : Char} (r : Str) (h : c ≠ '(') :
    stripLit ['('] (c :: r) = none := by
  simp [stripLit, List.isPrefixOf, Ne.symm h]

lemma tryPattern4_none_head {prev : Option Char} {c : Char} (r : Str)
    (h : c ≠ '(') : tryPattern4 prev (c :: r) = none := by
  unfold tryPattern4
  rw [stripLit_lparen_none r h]
  rfl

lemma tryPattern5_none_head {prev : Option Char} {c : Char} (r : Str)
    (h : c ≠ '(') : tryPattern5 prev (c :: r) = none := by
  unfold tryPattern5
  rw [stripLit_lparen_none r h]
  rfl

lemma tryPattern1_nil (prev : Option Char) : tryPattern1 prev [] = none := by
  unfold tryPattern1; split <;> rfl

lemma tryPattern2_nil (prev : Option Char) : tryPattern2 prev [] = none := by
  unfold tryPattern2; split <;> rfl

lemma tryPattern3_nil (prev : Option Char) : tryPattern3 prev [] = none := by
  unfold tryPattern3; split <;> rfl

lemma tryPattern4_nil (prev : Option Char) : tryPattern4 prev [] = none := rfl

lemma tryPattern5_nil (prev : Option Char) : tryPattern5 prev [] = none := rfl

/-! ### Evaluation of the patterns on canonical citation strings -/

lemma keyTrue_eq (a y : Str) :
    normalizeKey a y true =
      a ++ (' ' :: 'e' :: 't' :: ' ' :: 'a' :: 'l' :: '.' :: ' ' :: '(' :: (y ++ [')'])) := by
  simp [normalizeKey]

lemma keyFalse_eq (a y : Str) :
    normalizeKey a y false = a ++ (' ' :: '(' :: (y ++ [')'])) := by
  simp [normalizeKey]

lemma tryPattern1_keyTrue {c : Char} {cs y : Str} (prev : Option Char)
    (hc : isUpperAZ c = true) (hcs : ∀ x ∈ cs, isLowerAZ x = true) (hne : cs ≠ [])
    (hy : goodYear y = true) (hwb : wordBoundaryOk prev = true) :
    tryPattern1 prev
        ((c :: cs) ++ (' ' :: 'e' :: 't' :: ' ' :: 'a' :: 'l' :: '.' :: ' ' :: '(' :: (y ++ [')']))) =
      some (⟨normalizeKey (c :: cs) y true, c :: cs, y⟩, []) := by
  have h1 := matchAuthor_eq ' '
    ('e' :: 't' :: ' ' :: 'a' :: 'l' :: '.' :: ' ' :: '(' :: (y ++ [')'])) hc hcs hne (by decide)
  have h2 := matchSpaces1_single 'e' ('t' :: ' ' :: 'a' :: 'l' :: '.' :: ' ' :: '(' :: (y ++ [')']))
    (by decide)
  have h3 := matchSpaces1_single 'a' ('l' :: '.' :: ' ' :: '(' :: (y ++ [')'])) (by decide)
  have h4 := takeSpacesPair_single '(' (y ++ [')']) (by decide)
  simp [tryPattern1, hwb, h1, h2, h3, h4, stripLit, matchOptDot, matchYearParen_eq hy,
    keyTrue_eq]

lemma tryPattern3_keyFalse {c : Char} {cs y : Str} (prev : Option Char)
    (hc : isUpperAZ c = true) (hcs : ∀ x ∈ cs, isLowerAZ x = true) (hne : cs ≠ [])
    (hy : goodYear y = true) (hwb : wordBoundaryOk prev = true) :
    tryPattern3 prev ((c :: cs) ++ (' ' :: '(' :: (y ++ [')']))) =
      some (⟨normalizeKey (c :: cs) y false, c :: cs, y⟩, []) := by
  have h1 := matchAuthor_eq ' ' ('(' :: (y ++ [')'])) hc hcs hne (by decide)
  have h4 := takeSpacesPair_single '(' (y ++ [')']) (by decide)
  simp [tryPattern3, hwb, h1, h4, stripLit, matchYearParen_eq hy, keyFalse_eq]

lemma tryPattern1_keyFalse_none {c : Char} {cs y : Str} (prev : Option Char)
    (hc : isUpperAZ c = true) (hcs : ∀ x ∈ cs, isLowerAZ x = true) (hne : cs ≠ []) :
    tryPattern1 prev ((c :: cs) ++ (' ' :: '(' :: (y ++ [')']))) = none := by
  have h1 := matchAuthor_eq ' ' ('(' :: (y ++ [')'])) hc hcs hne (by decide)
  have h2 := matchSpaces1_single '(' (y ++ [')']) (by decide)
  unfold tryPattern1
  split
  · simp [List.cons_append, h1, h2, stripLit, List.isPrefixOf]
  · rfl

lemma tryPattern2_keyTrue_none {c : Char} {cs y : Str} (prev : Option Char)
    (hc : isUpperAZ c = true) (hcs : ∀ x ∈ cs, isLowerAZ x = true) (hne : cs ≠ []) :
    tryPattern2 prev
        ((c :: cs) ++ (' ' :: 'e' :: 't' :: ' ' :: 'a' :: 'l' :: '.' :: ' ' :: '(' :: (y ++ [')']))) =
      none := by
  have h1 := matchAuthor_eq ' '
    ('e' :: 't' :: ' ' :: 'a' :: 'l' :: '.' :: ' ' :: '(' :: (y ++ [')'])) hc hcs hne (by decide)
  have h2 := matchSpaces1_single 'e' ('t' :: ' ' :: 'a' :: 'l' :: '.' :: ' ' :: '(' :: (y ++ [')']))
    (by decide)
  unfold tryPattern2
  split
  · simp [List.cons_append, h1, h2, stripLit, List.isPrefixOf]
  · rfl

lemma tryPattern2_keyFalse_none {c : Char} {cs y : Str} (prev : Option Char)
    (hc : isUpperAZ c = true) (hcs : ∀ x ∈ cs, isLowerAZ x = true) (hne : cs ≠ []) :
    tryPattern2 prev ((c :: cs) ++ (' ' :: '(' :: (y ++ [')']))) = none := by
  have h1 := matchAuthor_eq ' ' ('(' :: (y ++ [')'])) hc hcs hne (by decide)
  have h2 := matchSpaces1_single '(' (y ++ [')']) (by decide)
  unfold tryPattern2
  split
  · simp [List.cons_append, h1, h2, stripLit, List.isPrefixOf]
  · rfl

lemma tryPattern3_keyTrue_none {c : Char} {cs y : Str} (prev : Option Char)
    (hc : isUpperAZ c = true) (hcs : ∀ x ∈ cs, isLowerAZ x = true) (hne : cs ≠ []) :
    tryPattern3 prev
        ((c :: cs) ++ (' ' :: 'e' :: 't' :: ' ' :: 'a' :: 'l' :: '.' :: ' ' :: '(' :: (y ++ [')']))) =
      none := by
  have h1 := matchAuthor_eq ' '
    ('e' :: 't' :: ' ' :: 'a' :: 'l' :: '.' :: ' ' :: '(' :: (y ++ [')'])) hc hcs hne (by decide)
  have h4 := takeSpacesPair_single 'e'
    ('t' :: ' ' :: 'a' :: 'l' :: '.' :: ' ' :: '(' :: (y ++ [')'])) (by decide)
  unfold tryPattern3
  split
  · simp [List.cons_append, h1, h4, stripLit, List.isPrefixOf]
  · rfl

lemma tryPattern4_lparen_tail_none {y : Str} (prev : Option Char) (hy : goodYear y = true) :
    tryPattern4 prev ('(' :: (y ++ [')'])) = none := by
  rcases y with _ | ⟨d1, ys⟩
  · simp [goodYear] at hy
  · have hd1 : isDigit09 d1 = true := by
      rcases ys with _ | ⟨d2, _ | ⟨d3, _ | ⟨d4, _ | ⟨l, _ | _⟩⟩⟩⟩ <;>
        simp only [goodYear, Bool.and_eq_true] at hy <;> tauto
    unfold tryPattern4
    simp [stripLit, List.isPrefixOf, matchAuthor_none _ (digit_not_upper hd1)]

lemma tryPattern5_lparen_tail_none {y : Str} (prev : Option Char) (hy : goodYear y = true) :
    tryPattern5 prev ('(' :: (y ++ [')'])) = none := by
  rcases y with _ | ⟨d1, ys⟩
  · simp [goodYear] at hy
  · have hd1 : isDigit09 d1 = true := by
      rcases ys with _ | ⟨d2, _ | ⟨d3, _ | ⟨d4, _ | ⟨l, _ | _⟩⟩⟩⟩ <;>
        simp only [goodYear, Bool.and_eq_true] at hy <;> tauto
    unfold tryPattern5
    simp [stripLit, List.isPrefixOf, matchAuthor_none _ (digit_not_upper hd1)]

lemma goodAuthor_parts {a : Str} (h : goodAuthor a = true) :
    ∃ c cs, a = c :: cs ∧ isUpperAZ c = true ∧ cs ≠ [] ∧ ∀ x ∈ cs, isLowerAZ x = true := by
  cases a with
  | nil => simp [goodAuthor] at h
  | cons c cs =>
    simp only [goodAuthor, Bool.and_eq_true, Bool.not_eq_true', List.all_eq_true] at h
    refine ⟨c, cs, rfl, h.1.1, ?_, fun x hx => h.2 x hx⟩
    intro hnil
    subst hnil
    simp at h

lemma goodYear_mem {y : Str} (h : goodYear y = true) :
    ∀ x ∈ y, isDigit09 x = true ∨ isLowerAZ x = true := by
  rcases y with _ | ⟨d1, _ | ⟨d2, _ | ⟨d3, _ | ⟨d4, _ | ⟨l, _ | ⟨x0, rest⟩⟩⟩⟩⟩⟩
  · simp [goodYear] at h
  · simp [goodYear] at h
  · simp [goodYear] at h
  · simp [goodYear] at h
  · simp only [goodYear, Bool.and_eq_true] at h
    intro x hx
    simp only [List.mem_cons, List.not_mem_nil, or_false] at hx
    rcases hx with rfl | rfl | rfl | rfl
    · exact Or.inl h.1.1.1
    · exact Or.inl h.1.1.2
    · exact Or.inl h.1.2
    · exact Or.inl h.2
  · simp only [goodYear, Bool.and_eq_true] at h
    intro x hx
    simp only [List.mem_cons, List.not_mem_nil, or_false] at hx
    rcases hx with rfl | rfl | rfl | rfl | rfl
    · exact Or.inl h.1.1.1.1
    · exact Or.inl h.1.1.1.2
    · exact Or.inl h.1.1.2
    · exact Or.inl h.1.2
    · exact Or.inr h.2
  · simp [goodYear] at h

/-- Classification of the scan positions of `{Author} et al. ({Year})`. -/
lemma tails_keyTrue {c : Char} {cs y suf : Str}
    (hcs : ∀ x ∈ cs, isLowerAZ x = true) (hy : goodYear y = true)
    (h : IsTail suf
      ((c :: cs) ++ (' ' :: 'e' :: 't' :: ' ' :: 'a' :: 'l' :: '.' :: ' ' :: '(' :: (y ++ [')'])))) :
    suf = (c :: cs) ++ (' ' :: 'e' :: 't' :: ' ' :: 'a' :: 'l' :: '.' :: ' ' :: '(' :: (y ++ [')'])) ∨
      suf = '(' :: (y ++ [')']) ∨ suf = [] ∨
      (∃ d r, suf = d :: r ∧ isUpperAZ d = false ∧ d ≠ '(') := by
  have mk4 : ∀ (d : Char) (r : Str), isUpperAZ d = false → d ≠ '(' →
      (suf = d :: r) →
      suf = (c :: cs) ++ (' ' :: 'e' :: 't' :: ' ' :: 'a' :: 'l' :: '.' :: ' ' :: '(' :: (y ++ [')'])) ∨
      suf = '(' :: (y ++ [')']) ∨ suf = [] ∨
      (∃ d r, suf = d :: r ∧ isUpperAZ d = false ∧ d ≠ '(') :=
    fun d r hu hp he => Or.inr (Or.inr (Or.inr ⟨d, r, he, hu, hp⟩))
  rcases isTail_cons h with heq | h
  · exact Or.inl heq
  rcases isTail_append_cases h with ⟨d, u', heq, hd⟩ | h
  · exact mk4 d _ (lower_not_upper (hcs d hd)) (lower_ne_lparen (hcs d hd)) heq
  rcases isTail_cons h with heq | h
  · exact mk4 _ _ (by decide) (by decide) heq
  rcases isTail_cons h with heq | h
  · exact mk4 _ _ (by decide) (by decide) heq
  rcases isTail_cons h with heq | h
  · exact mk4 _ _ (by decide) (by decide) heq
  rcases isTail_cons h with heq | h
  · exact mk4 _ _ (by decide) (by decide) heq
  rcases isTail_cons h with heq | h
  · exact mk4 _ _ (by decide) (by decide) heq
  rcases isTail_cons h with heq | h
  · exact mk4 _ _ (by decide) (by decide) heq
  rcases isTail_cons h with heq | h
  · exact mk4 _ _ (by decide) (by decide) heq
  rcases isTail_cons h with heq | h
  · exact mk4 _ _ (by decide) (by decide) heq
  rcases isTail_cons h with heq | h
  · exact Or.inr (Or.inl heq)
  rcases isTail_append_cases h with ⟨d, u', heq, hd⟩ | h
  · rcases goodYear_mem hy d hd with hdig | hlow
    · exact mk4 d _ (digit_not_upper hdig) (digit_ne_lparen hdig) heq
    · exact mk4 d _ (lower_not_upper hlow) (lower_ne_lparen hlow) heq
  rcases isTail_cons h with heq | h
  · exact mk4 _ _ (by decide) (by decide) heq
  · obtain ⟨pre, hpre⟩ := h
    exact Or.inr (Or.inr (Or.inl (List.append_eq_nil.mp hpre.symm).2))

/-- Classification of the scan positions of `{Author} ({Year})`. -/
lemma tails_keyFalse {c : Char} {cs y suf : Str}
    (hcs : ∀ x ∈ cs, isLowerAZ x = true) (hy : goodYear y = true)
    (h : IsTail suf ((c :: cs) ++ (' ' :: '(' :: (y ++ [')'])))) :
    suf = (c :: cs) ++ (' ' :: '(' :: (y ++ [')'])) ∨
      suf = '(' :: (y ++ [')']) ∨ suf = [] ∨
      (∃ d r, suf = d :: r ∧ isUpperAZ d = false ∧ d ≠ '(') := by
  have mk4 : ∀ (d : Char) (r : Str), isUpperAZ d = false → d ≠ '(' →
      (suf = d :: r) →
      suf = (c :: cs) ++ (' ' :: '(' :: (y ++ [')'])) ∨
      suf = '(' :: (y ++ [')']) ∨ suf = [] ∨
      (∃ d r, suf = d :: r ∧ isUpperAZ d = false ∧ d ≠ '(') :=
    fun d r hu hp he => Or.inr (Or.inr (Or.inr ⟨d, r, he, hu, hp⟩))
  rcases isTail_cons h with heq | h
  · exact Or.inl heq
  rcases isTail_append_cases h with ⟨d, u', heq, hd⟩ | h
  · exact mk4 d _ (lower_not_upper (hcs d hd)) (lower_ne_lparen (hcs d hd)) heq
  rcases isTail_cons h with heq | h
  · exact mk4 _ _ (by decide) (by decide) heq
  rcases isTail_cons h with heq | h
  · exact Or.inr (Or.inl heq)
  rcases isTail_append_cases h with ⟨d, u', heq, hd⟩ | h
  · rcases goodYear_mem hy d hd with hdig | hlow
    · exact mk4 d _ (digit_not_upper hdig) (digit_ne_lparen hdig) heq
    · exact mk4 d _ (lower_not_upper hlow) (lower_ne_lparen hlow) heq
  rcases isTail_cons h with heq | h
  · exact mk4 _ _ (by decide) (by decide) heq
  · obtain ⟨pre, hpre⟩ := h
    exact Or.inr (Or.inr (Or.inl (List.append_eq_nil.mp hpre.symm).2))

/-! ### `extract_citations` on canonical citation strings -/

lemma lowerStr_keyTrue (a y : Str) :
    lowerStr (a ++ (' ' :: 'e' :: 't' :: ' ' :: 'a' :: 'l' :: '.' :: ' ' :: '(' :: (y ++ [')']))) =
      (lowerStr a ++ [' ']) ++
        ('e' :: 't' :: ' ' :: 'a' :: 'l' :: ('.' :: ' ' :: '(' :: (lowerStr y ++ [')']))) := by
  simp only [lowerStr, List.map_append, List.map_cons]
  have c1 : lowerCh ' ' = ' ' := by decide
  have c2 : lowerCh 'e' = 'e' := by decide
  have c3 : lowerCh 't' = 't' := by decide
  have c4 : lowerCh 'a' = 'a' := by decide
  have c5 : lowerCh 'l' = 'l' := by decide
  have c6 : lowerCh '.' = '.' := by decide
  have c7 : lowerCh '(' = '(' := by decide
  have c8 : lowerCh ')' = ')' := by decide
  simp [c1, c2, c3, c4, c5, c6, c7, c8]

lemma etAlFlag_keyTrue (a y : Str) : etAlFlag (normalizeKey a y true) = true := by
  rw [keyTrue_eq, etAlFlag, etal_toList, lowerStr_keyTrue]
  exact containsSub_append_of_isPrefixOf _ (by simp [List.isPrefixOf])

lemma lowerStr_keyFalse (a y : Str) :
    lowerStr (a ++ (' ' :: '(' :: (y ++ [')']))) =
      lowerStr a ++ (' ' :: '(' :: (lowerStr y ++ [')'])) := by
  simp only [lowerStr, List.map_append, List.map_cons]
  have c1 : lowerCh ' ' = ' ' := by decide
  have c7 : lowerCh '(' = '(' := by decide
  have c8 : lowerCh ')' = ')' := by decide
  simp [c1, c7, c8]

lemma lowerCh_ne_space_of_ok {x : Char}
    (h : isUpperAZ x = true ∨ isLowerAZ x = true ∨ isDigit09 x = true) :
    lowerCh x ≠ ' ' := by
  rcases h with h | h | h
  · exact lowerCh_ne_space h
  · rw [lowerCh_of_not_upper (lower_not_upper h)]; exact lower_ne_space h
  · rw [lowerCh_of_not_upper (digit_not_upper h)]; exact digit_ne_space h

lemma etAlFlag_keyFalse {a y : Str} (ha : goodAuthor a = true) (hy : goodYear y = true) :
    etAlFlag (normalizeKey a y false) = false := by
  obtain ⟨c, cs, rfl, hc, hne, hcs⟩ := goodAuthor_parts ha
  rw [keyFalse_eq, etAlFlag, etal_toList, lowerStr_keyFalse]
  have hu : ∀ x ∈ lowerStr (c :: cs), x ≠ ' ' := by
    intro x hx
    simp only [lowerStr, List.mem_map] at hx
    obtain ⟨z, hz, rfl⟩ := hx
    rcases List.mem_cons.mp hz with rfl | hz
    · exact lowerCh_ne_space_of_ok (Or.inl hc)
    · exact lowerCh_ne_space_of_ok (Or.inr (Or.inl (hcs z hz)))
  have hw : ∀ x ∈ lowerStr y ++ [')'], x ≠ ' ' := by
    intro x hx
    rcases List.mem_append.mp hx with hx | hx
    · simp only [lowerStr, List.mem_map] at hx
      obtain ⟨z, hz, rfl⟩ := hx
      rcases goodYear_mem hy z hz with h | h
      · exact lowerCh_ne_space_of_ok (Or.inr (Or.inr h))
      · exact lowerCh_ne_space_of_ok (Or.inr (Or.inl h))
    · simp only [List.mem_singleton] at hx
      subst hx
      decide
  exact etal_not_containsSub hu hw

lemma rawMatches_keyTrue {a y : Str} (ha : goodAuthor a = true) (hy : goodYear y = true) :
    rawMatches (normalizeKey a y true) = [⟨normalizeKey a y true, a, y⟩] := by
  obtain ⟨c, cs, rfl, hc, hne, hcs⟩ := goodAuthor_parts ha
  rw [keyTrue_eq]
  have h1 : finditer tryPattern1
      ((c :: cs) ++ (' ' :: 'e' :: 't' :: ' ' :: 'a' :: 'l' :: '.' :: ' ' :: '(' :: (y ++ [')']))) =
      [⟨normalizeKey (c :: cs) y true, c :: cs, y⟩] := by
    apply finditer_single
    exact tryPattern1_keyTrue none hc hcs hne hy rfl
  have h2 : finditer tryPattern2
      ((c :: cs) ++ (' ' :: 'e' :: 't' :: ' ' :: 'a' :: 'l' :: '.' :: ' ' :: '(' :: (y ++ [')']))) = [] := by
    apply finditer_none
    intro prev suf hsuf hne2
    rcases tails_keyTrue hcs hy hsuf with rfl | rfl | rfl | ⟨d, r, rfl, hu, hp⟩
    · exact tryPattern2_keyTrue_none prev hc hcs hne
    · exact tryPattern2_none_head _ (by decide)
    · exact absurd rfl hne2
    · exact tryPattern2_none_head _ hu
  have h3 : finditer tryPattern3
      ((c :: cs) ++ (' ' :: 'e' :: 't' :: ' ' :: 'a' :: 'l' :: '.' :: ' ' :: '(' :: (y ++ [')']))) = [] := by
    apply finditer_none
    intro prev suf hsuf hne2
    rcases tails_keyTrue hcs hy hsuf with rfl | rfl | rfl | ⟨d, r, rfl, hu, hp⟩
    · exact tryPattern3_keyTrue_none prev hc hcs hne
    · exact tryPattern3_none_head _ (by decide)
    · exact absurd rfl hne2
    · exact tryPattern3_none_head _ hu
  have h4 : finditer tryPattern4
      ((c :: cs) ++ (' ' :: 'e' :: 't' :: ' ' :: 'a' :: 'l' :: '.' :: ' ' :: '(' :: (y ++ [')']))) = [] := by
    apply finditer_none
    intro prev suf hsuf hne2
    rcases tails_keyTrue hcs hy hsuf with rfl | rfl | rfl | ⟨d, r, rfl, hu, hp⟩
    · exact tryPattern4_none_head _ (upper_ne_lparen hc)
    · exact tryPattern4_lparen_tail_none prev hy
    · exact absurd rfl hne2
    · exact tryPattern4_none_head _ hp
  have h5 : finditer tryPattern5
      ((c :: cs) ++ (' ' :: 'e' :: 't' :: ' ' :: 'a' :: 'l' :: '.' :: ' ' :: '(' :: (y ++ [')']))) = [] := by
    apply finditer_none
    intro prev suf hsuf hne2
    rcases tails_keyTrue hcs hy hsuf with rfl | rfl | rfl | ⟨d, r, rfl, hu, hp⟩
    · exact tryPattern5_none_head _ (upper_ne_lparen hc)
    · exact tryPattern5_lparen_tail_none prev hy
    · exact absurd rfl hne2
    · exact tryPattern5_none_head _ hp
  simp only [rawMatches, citation_patterns, List.flatMap_cons, List.flatMap_nil,
    h1, h2, h3, h4, h5, List.append_nil, List.nil_append, keyTrue_eq]

lemma rawMatches_keyFalse {a y : Str} (ha : goodAuthor a = true) (hy : goodYear y = true) :
    rawMatches (normalizeKey a y false) = [⟨normalizeKey a y false, a, y⟩] := by
  obtain ⟨c, cs, rfl, hc, hne, hcs⟩ := goodAuthor_parts ha
  rw [keyFalse_eq]
  have h1 : finditer tryPattern1 ((c :: cs) ++ (' ' :: '(' :: (y ++ [')']))) = [] := by
    apply finditer_none
    intro prev suf hsuf hne2
    rcases tails_keyFalse hcs hy hsuf with rfl | rfl | rfl | ⟨d, r, rfl, hu, hp⟩
    · exact tryPattern1_keyFalse_none prev hc hcs hne
    · exact tryPattern1_none_head _ (by decide)
    · exact absurd rfl hne2
    · exact tryPattern1_none_head _ hu
  have h2 : finditer tryPattern2 ((c :: cs) ++ (' ' :: '(' :: (y ++ [')']))) = [] := by
    apply finditer_none
    intro prev suf hsuf hne2
    rcases tails_keyFalse hcs hy hsuf with rfl | rfl | rfl | ⟨d, r, rfl, hu, hp⟩
    · exact tryPattern2_keyFalse_none prev hc hcs hne
    · exact tryPattern2_none_head _ (by decide)
    · exact absurd rfl hne2
    · exact tryPattern2_none_head _ hu
  have h3 : finditer tryPattern3 ((c :: cs) ++ (' ' :: '(' :: (y ++ [')']))) =
      [⟨normalizeKey (c :: cs) y false, c :: cs, y⟩] := by
    apply finditer_single
    exact tryPattern3_keyFalse none hc hcs hne hy rfl
  have h4 : finditer tryPattern4 ((c :: cs) ++ (' ' :: '(' :: (y ++ [')']))) = [] := by
    apply finditer_none
    intro prev suf hsuf hne2
    rcases tails_keyFalse hcs hy hsuf with rfl | rfl | rfl | ⟨d, r, rfl, hu, hp⟩
    · exact tryPattern4_none_head _ (upper_ne_lparen hc)
    · exact tryPattern4_lparen_tail_none prev hy
    · exact absurd rfl hne2
    · exact tryPattern4_none_head _ hp
  have h5 : finditer tryPattern5 ((c :: cs) ++ (' ' :: '(' :: (y ++ [')']))) = [] := by
    apply finditer_none
    intro prev suf hsuf hne2
    rcases tails_keyFalse hcs hy hsuf with rfl | rfl | rfl | ⟨d, r, rfl, hu, hp⟩
    · exact tryPattern5_none_head _ (upper_ne_lparen hc)
    · exact tryPattern5_lparen_tail_none prev hy
    · exact absurd rfl hne2
    · exact tryPattern5_none_head _ hp
  simp only [rawMatches, citation_patterns, List.flatMap_cons, List.flatMap_nil,
    h1, h2, h3, h4, h5, List.append_nil, List.nil_append, keyFalse_eq]

/-- An already-canonical citation string re-extracts to exactly itself: the
single extraction record has the input as both original text and normalized
key. -/
lemma extract_citations_key {a y : Str} (ha : goodAuthor a = true)
    (hy : goodYear y = true) (f : Bool) :
    extract_citations (normalizeKey a y f) =
      [⟨normalizeKey a y f, normalizeKey a y f, a, y⟩] := by
  cases f with
  | true =>
    rw [extract_citations, rawMatches_keyTrue ha hy]
    simp [dedupAux, recordOf, normalizeOf, etAlFlag_keyTrue]
  | false =>
    rw [extract_citations, rawMatches_keyFalse ha hy]
    simp [dedupAux, recordOf, normalizeOf, etAlFlag_keyFalse ha hy]

/-! ### Every raw match's author has the shape `[A-Z][a-z]+` -/

/-- The author shape every pattern guarantees. -/
def GoodAuthorShape (a : Str) : Prop :=
  ∃ c cs, a = c :: cs ∧ isUpperAZ c = true ∧ ∀ x ∈ cs, isLowerAZ x = true

lemma matchAuthor_shape {s a r : Str} (h : matchAuthor s = some (a, r)) :
    GoodAuthorShape a := by
  cases s with
  | nil => simp [matchAuthor] at h
  | cons c rest =>
    simp only [matchAuthor] at h
    split_ifs at h with h1 h2
    · simp only [Option.some.injEq, Prod.mk.injEq] at h
      refine ⟨c, rest.takeWhile isLowerAZ, h.1.symm, h1, ?_⟩
      intro x hx
      exact List.mem_takeWhile_imp hx

lemma tryPattern1_author {prev : Option Char} {s : Str} {m : RawMatch} {r : Str}
    (h : tryPattern1 prev s = some (m, r)) : GoodAuthorShape m.author := by
  by_cases hwb : wordBoundaryOk prev = true
  · rw [tryPattern1, if_pos hwb] at h
    simp only [Option.bind_eq_some, Option.some.injEq, Prod.mk.injEq] at h
    obtain ⟨ar, hma, sp1, hsp1, r3, h3, sp2, hsp2, r5, h5, r8, h8, yr, hyr, hm, hr⟩ := h
    obtain ⟨c, cs, hcons, hup, hlow⟩ := matchAuthor_shape hma
    subst hm
    exact ⟨c, cs, hcons, hup, hlow⟩
  · rw [tryPattern1, if_neg hwb] at h
    exact absurd h (by simp)

lemma tryPattern2_author {prev : Option Char} {s : Str} {m : RawMatch} {r : Str}
    (h : tryPattern2 prev s = some (m, r)) : GoodAuthorShape m.author := by
  by_cases hwb : wordBoundaryOk prev = true
  · rw [tryPattern2, if_pos hwb] at h
    simp only [Option.bind_eq_some, Option.some.injEq, Prod.mk.injEq] at h
    obtain ⟨ar, hma, sp1, hsp1, r3, h3, sp2, hsp2, ar2, har2, r7, h7, yr, hyr, hm, hr⟩ := h
    obtain ⟨c, cs, hcons, hup, hlow⟩ := matchAuthor_shape hma
    subst hm
    exact ⟨c, cs, hcons, hup, hlow⟩
  · rw [tryPattern2, if_neg hwb] at h
    exact absurd h (by simp)

lemma tryPattern3_author {prev : Option Char} {s : Str} {m : RawMatch} {r : Str}
    (h : tryPattern3 prev s = some (m, r)) : GoodAuthorShape m.author := by
  by_cases hwb : wordBoundaryOk prev = true
  · rw [tryPattern3, if_pos hwb] at h
    simp only [Option.bind_eq_some, Option.some.injEq, Prod.mk.injEq] at h
    obtain ⟨ar, hma, r3, h3, yr, hyr, hm, hr⟩ := h
    obtain ⟨c, cs, hcons, hup, hlow⟩ := matchAuthor_shape hma
    subst hm
    exact ⟨c, cs, hcons, hup, hlow⟩
  · rw [tryPattern3, if_neg hwb] at h
    exact absurd h (by simp)

lemma tryPattern4_author {prev : Option Char} {s : Str} {m : RawMatch} {r : Str}
    (h : tryPattern4 prev s = some (m, r)) : GoodAuthorShape m.author := by
  rw [tryPattern4] at h
  simp only [Option.bind_eq_some, Option.some.injEq, Prod.mk.injEq] at h
  obtain ⟨r0, h0, ar, hma, sp1, hsp1, r3, h3, sp2, hsp2, r5, h5, r7, h7, yr, hyr, hm, hr⟩ := h
  obtain ⟨c, cs, hcons, hup, hlow⟩ := matchAuthor_shape hma
  subst hm
  exact ⟨c, cs, hcons, hup, hlow⟩

lemma tryPattern5_author {prev : Option Char} {s : Str} {m : RawMatch} {r : Str}
    (h : tryPattern5 prev s = some (m, r)) : GoodAuthorShape m.author := by
  rw [tryPattern5] at h
  simp only [Option.bind_eq_some, Option.some.injEq, Prod.mk.injEq] at h
  obtain ⟨r0, h0, ar, hma, r2, h2, yr, hyr, hm, hr⟩ := h
  obtain ⟨c, cs, hcons, hup, hlow⟩ := matchAuthor_shape hma
  subst hm
  exact ⟨c, cs, hcons, hup, hlow⟩

/-- Author-shape invariant of the raw scan: every emitted match captured its
author through `matchAuthor`. -/
lemma rawMatches_author {text : Str} {m : RawMatch} (h : m ∈ rawMatches text) :
    GoodAuthorShape m.author := by
  simp only [rawMatches, citation_patterns, List.mem_flatMap, List.mem_cons,
    List.not_mem_nil, or_false] at h
  obtain ⟨p, hp, hm⟩ := h
  obtain ⟨prev, s', r, hpat⟩ := mem_finditer hm
  rcases hp with rfl | rfl | rfl | rfl | rfl
  · exact tryPattern1_author hpat
  · exact tryPattern2_author hpat
  · exact tryPattern3_author hpat
  · exact tryPattern4_author hpat
  · exact tryPattern5_author hpat

/-! ### Dedup lemmas -/

lemma dedupAux_length_le (seen : List Str) (l : List RawMatch) :
    (dedupAux seen l).length ≤ l.length := by
  induction l generalizing seen with
  | nil => simp [dedupAux]
  | cons m ms ih =>
    rw [dedupAux]
    by_cases hseen : seen.contains (normalizeOf m) = true
    · rw [if_pos hseen]
      exact le_trans (ih seen) (by simp)
    · rw [if_neg hseen]
      simpa using ih (normalizeOf m :: seen)

lemma contains_iff_mem {l : List Str} {a : Str} : l.contains a = true ↔ a ∈ l :=
  List.elem_iff

lemma card_insert_eq_card_erase_add_one (n : Str) (S : Finset Str) :
    (insert n S).card = (S.erase n).card + 1 := by
  by_cases h : n ∈ S
  · rw [Finset.insert_eq_self.mpr h, Finset.card_erase_of_mem h,
      Nat.sub_add_cancel (Finset.card_pos.mpr ⟨n, h⟩)]
  · rw [Finset.erase_eq_of_not_mem h, Finset.card_insert_of_not_mem h]

lemma dedupAux_length_eq (seen : List Str) (l : List RawMatch) :
    (dedupAux seen l).length =
      ((l.map normalizeOf).toFinset \ seen.toFinset).card := by
  induction l generalizing seen with
  | nil => simp [dedupAux]
  | cons m ms ih =>
    rw [dedupAux]
    by_cases hseen : seen.contains (normalizeOf m) = true
    · rw [if_pos hseen]
      have hmem : normalizeOf m ∈ seen.toFinset := by
        rw [List.mem_toFinset]
        exact contains_iff_mem.mp hseen
      rw [ih seen]
      congr 1
      rw [List.map_cons, List.toFinset_cons, Finset.insert_sdiff_of_mem _ hmem]
    · rw [if_neg hseen]
      have hnmem : normalizeOf m ∉ seen.toFinset := by
        rw [List.mem_toFinset]
        intro hc
        exact hseen (contains_iff_mem.mpr hc)
      rw [List.length_cons, ih (normalizeOf m :: seen)]
      rw [List.map_cons, List.toFinset_cons, List.toFinset_cons]
      rw [Finset.sdiff_insert, Finset.insert_sdiff_of_not_mem _ hnmem,
        card_insert_eq_card_erase_add_one]

lemma mem_dedupAux {seen : List Str} {l : List RawMatch} {r : CitationRecord}
    (h : r ∈ dedupAux seen l) :
    r.normalized ∉ seen ∧
      ∃ m, l.find? (fun m' => normalizeOf m' == r.normalized) = some m ∧ r = recordOf m := by
  induction l generalizing seen with
  | nil => simp [dedupAux] at h
  | cons m ms ih =>
    rw [dedupAux] at h
    by_cases hseen : seen.contains (normalizeOf m) = true
    · rw [if_pos hseen] at h
      obtain ⟨hnot, m', hfind, hrec⟩ := ih h
      have hpm : ¬ (normalizeOf m == r.normalized) = true := by
        simp only [beq_iff_eq]
        intro heq
        exact hnot (by rw [← heq]; exact contains_iff_mem.mp hseen)
      exact ⟨hnot, m', by
        rw [List.find?_cons_of_neg (p := fun m' => normalizeOf m' == r.normalized) ms hpm]
        exact hfind, hrec⟩
    · rw [if_neg hseen] at h
      have hnseen : normalizeOf m ∉ seen := fun hc => hseen (contains_iff_mem.mpr hc)
      rcases List.mem_cons.mp h with rfl | h
      · refine ⟨hnseen, m, ?_, rfl⟩
        rw [List.find?_cons_of_pos _ (by simp [recordOf])]
      · obtain ⟨hnot, m', hfind, hrec⟩ := ih h
        have hne : r.normalized ≠ normalizeOf m := fun heq => hnot (by rw [heq]; simp)
        refine ⟨fun hc => hnot (by simp [hc]), m', ?_, hrec⟩
        rw [List.find?_cons_of_neg (p := fun m' => normalizeOf m' == r.normalized) ms
          (by simp only [beq_iff_eq]; exact fun heq => hne heq.symm)]
        exact hfind

/-! ### Injectivity of the normalized key in (author, year, flag) -/

/-- The (author, year, et-al-flag) triple of a raw match. -/
def tupleOf (m : RawMatch) : Str × Str × Bool := (m.author, m.year, etAlFlag m.text)

def keyOfTuple (t : Str × Str × Bool) : Str := normalizeKey t.1 t.2.1 t.2.2

lemma normalizeOf_eq_keyOfTuple (m : RawMatch) : normalizeOf m = keyOfTuple (tupleOf m) := rfl

lemma goodAuthorShape_no_space {a : Str} (h : GoodAuthorShape a) :
    ∀ c ∈ a, (c != ' ') = true := by
  obtain ⟨c, cs, rfl, hup, hlow⟩ := h
  intro x hx
  rcases List.mem_cons.mp hx with rfl | hx
  · simp only [bne_iff_ne, ne_eq]
    intro heq
    subst heq
    exact absurd hup (by decide)
  · simp only [bne_iff_ne, ne_eq]
    exact lower_ne_space (hlow x hx)

lemma normalizeKey_inj {a1 y1 a2 y2 : Str} {f1 f2 : Bool}
    (h1 : GoodAuthorShape a1) (h2 : GoodAuthorShape a2)
    (heq : normalizeKey a1 y1 f1 = normalizeKey a2 y2 f2) :
    a1 = a2 ∧ y1 = y2 ∧ f1 = f2 := by
  have key_form : ∀ (a y : Str) (f : Bool), ∃ rest,
      normalizeKey a y f = a ++ (' ' :: rest) ∧
        rest = if f then 'e' :: 't' :: ' ' :: 'a' :: 'l' :: '.' :: ' ' :: '(' :: (y ++ [')'])
               else '(' :: (y ++ [')']) := by
    intro a y f
    cases f with
    | true => exact ⟨_, keyTrue_eq a y, rfl⟩
    | false => exact ⟨_, keyFalse_eq a y, rfl⟩
  obtain ⟨rest1, hk1, hr1⟩ := key_form a1 y1 f1
  obtain ⟨rest2, hk2, hr2⟩ := key_form a2 y2 f2
  rw [hk1, hk2] at heq
  have ht1 := takeWhile_all_append (p := fun c => c != ' ') ' ' rest1
    (goodAuthorShape_no_space h1) (by decide)
  have ht2 := takeWhile_all_append (p := fun c => c != ' ') ' ' rest2
    (goodAuthorShape_no_space h2) (by decide)
  have ha : a1 = a2 := by rw [← ht1.1, ← ht2.1, heq]
  have hdrop : (' ' :: rest1 : Str) = ' ' :: rest2 := by
    rw [← ht1.2, ← ht2.2, heq]
  have hrest : rest1 = rest2 := by injection hdrop
  subst ha
  refine ⟨rfl, ?_⟩
  rw [hr1, hr2] at hrest
  cases f1 <;> cases f2 <;> simp at hrest <;>
    first
    | exact ⟨List.append_cancel_right hrest, rfl⟩
    | exact ⟨hrest, rfl⟩

/-! ### Counting, lookup and cardinality glue -/

lemma countP_identity (results : List ResultRow) :
    results.countP (fun r => r.verified) + results.countP (fun r => r.suspicious) +
        results.countP (fun r => !r.verified && !r.suspicious) =
      results.length + results.countP (fun r => r.verified && r.suspicious) := by
  induction results with
  | nil => simp
  | cons r rs ih =>
    rcases h1 : r.verified with _ | _ <;> rcases h2 : r.suspicious with _ | _ <;>
      simp [List.countP_cons, h1, h2] <;> omega

lemma lookupMap_eq_some_imp {d : List (Str × Str)} {k v : Str}
    (h : lookupMap d k = some v) : ∃ p ∈ d, p.1 = k := by
  induction d with
  | nil => simp [lookupMap] at h
  | cons p rest ih =>
    rcases p with ⟨k', v'⟩
    rw [lookupMap] at h
    by_cases hk : k' = k
    · exact ⟨(k', v'), by simp, hk⟩
    · rw [if_neg hk] at h
      obtain ⟨q, hq, hqk⟩ := ih h
      exact ⟨q, by simp [hq], hqk⟩

lemma isPrefixOf_append_self (l t : Str) : l.isPrefixOf (l ++ t) = true := by
  induction l with
  | nil => simp
  | cons c l ih => simp [List.isPrefixOf, ih]

lemma upper_ne_a {c : Char} (h : isUpperAZ c = true) : c ≠ 'a' := by
  intro heq; subst heq; exact absurd h (by decide)

/-- A normalized key of a well-formed match never has `"arXiv:"` as a prefix
(its first character is an upper-case letter, not `'a'`). -/
lemma arxiv_not_prefix_of_key {a y : Str} {f : Bool} (h : GoodAuthorShape a) :
    ("arXiv:".toList).isPrefixOf (normalizeKey a y f) = false := by
  obtain ⟨c, cs, rfl, hup, hlow⟩ := h
  have hne : ('a' == c) = false := by
    rcases hb : ('a' == c) with _ | _
    · rfl
    · exact absurd (beq_iff_eq.mp hb).symm (upper_ne_a hup)
  cases f with
  | true => rw [keyTrue_eq]; simp [List.isPrefixOf, hne]
  | false => rw [keyFalse_eq]; simp [List.isPrefixOf, hne]

/-- Every record `extract_citations` returns is `recordOf` of the first raw
match carrying its key. -/
lemma mem_extract_citations {text : Str} {r : CitationRecord}
    (h : r ∈ extract_citations text) :
    ∃ m, (rawMatches text).find? (fun m' => normalizeOf m' == r.normalized) = some m ∧
      r = recordOf m := by
  exact (mem_dedupAux h).2

lemma mem_extract_citations_raw {text : Str} {r : CitationRecord}
    (h : r ∈ extract_citations text) :
    ∃ m ∈ rawMatches text, r = recordOf m := by
  obtain ⟨m, hfind, hrec⟩ := mem_extract_citations h
  exact ⟨m, List.mem_of_find?_eq_some hfind, hrec⟩

lemma extract_citations_length_eq (text : Str) :
    (extract_citations text).length =
      ((rawMatches text).map tupleOf).toFinset.card := by
  rw [extract_citations, dedupAux_length_eq]
  simp only [List.toFinset_nil, Finset.sdiff_empty]
  have hmap : (rawMatches text).map normalizeOf =
      ((rawMatches text).map tupleOf).map keyOfTuple := by
    rw [List.map_map]
    exact List.map_congr_left fun m _ => rfl
  have hfin : (((rawMatches text).map tupleOf).map keyOfTuple).toFinset =
      ((rawMatches text).map tupleOf).toFinset.image keyOfTuple := by
    ext x
    simp [List.mem_toFinset, List.mem_map, Finset.mem_image]
  rw [hmap, hfin, Finset.card_image_of_injOn]
  intro t1 h1 t2 h2 heq
  simp only [Finset.mem_coe, List.mem_toFinset, List.mem_map] at h1 h2
  obtain ⟨m1, hm1, rfl⟩ := h1
  obtain ⟨m2, hm2, rfl⟩ := h2
  obtain ⟨ha, hy, hf⟩ := normalizeKey_inj (rawMatches_author hm1) (rawMatches_author hm2) heq
  simp only [tupleOf, Prod.mk.injEq]
  exact ⟨ha, hy, hf⟩

/-! ### Claim theorems -/

/-- C1: for every normalized citation key and every pair (VerifiedSet,
SuspiciousMap), `verify_citation`'s status follows the exhaustive 2x2
precedence matrix over exact-string membership: in VerifiedSet only gives
VERIFIED, in both gives VERIFIED_BUT_FLAGGED (never VERIFIED or SUSPICIOUS
alone), in SuspiciousMap only gives SUSPICIOUS, in neither gives UNVERIFIED;
the verified and suspicious flags are exact membership tests. -/
theorem C1_status_matrix (vs : List Str) (ss : List (Str × Str)) (k : Str) :
    (verify_citation ⟨vs, ss⟩ k).verified = vs.contains k ∧
    (verify_citation ⟨vs, ss⟩ k).suspicious = containsKey ss k ∧
    (vs.contains k = true → containsKey ss k = false →
      (verify_citation ⟨vs, ss⟩ k).status = "✅ VERIFIED".toList) ∧
    (vs.contains k = true → containsKey ss k = true →
      (verify_citation ⟨vs, ss⟩ k).status = "⚠️ VERIFIED BUT FLAGGED".toList ∧
      (verify_citation ⟨vs, ss⟩ k).status ≠ "✅ VERIFIED".toList ∧
      (verify_citation ⟨vs, ss⟩ k).status ≠ "❌ SUSPICIOUS".toList) ∧
    (vs.contains k = false → containsKey ss k = true →
      (verify_citation ⟨vs, ss⟩ k).status = "❌ SUSPICIOUS".toList) ∧
    (vs.contains k = false → containsKey ss k = false →
      (verify_citation ⟨vs, ss⟩ k).status = "❓ UNVERIFIED".toList) := by
  refine ⟨rfl, rfl, ?_, ?_, ?_, ?_⟩ <;> intro h1 h2
  · have h1m : k ∈ vs := contains_iff_mem.mp h1
    simp [verify_citation, get_status, h1m, h2]
  · have h1m : k ∈ vs := contains_iff_mem.mp h1
    refine ⟨by simp [verify_citation, get_status, h1m, h2], ?_, ?_⟩ <;>
      simp [verify_citation, get_status, h1m, h2]
  · have h1m : ¬ k ∈ vs := fun hm => by rw [contains_iff_mem.mpr hm] at h1; cases h1
    simp [verify_citation, get_status, h1m, h2]
  · have h1m : ¬ k ∈ vs := fun hm => by rw [contains_iff_mem.mpr hm] at h1; cases h1
    simp [verify_citation, get_status, h1m, h2]

/-- C1 witness: a key present in both structures is flagged, and the status
differs from both plain statuses. -/
theorem C1_status_matrix_witness :
    (verify_citation ⟨["Smith (2024)".toList], [("Smith (2024)".toList, "retracted".toList)]⟩
        "Smith (2024)".toList).status = "⚠️ VERIFIED BUT FLAGGED".toList ∧
    (verify_citation ⟨["Smith (2024)".toList], [("Smith (2024)".toList, "retracted".toList)]⟩
        "Smith (2024)".toList).status ≠ "✅ VERIFIED".toList ∧
    (verify_citation ⟨["Smith (2024)".toList], [("Smith (2024)".toList, "retracted".toList)]⟩
        "Smith (2024)".toList).status ≠ "❌ SUSPICIOUS".toList :=
  (C1_status_matrix ["Smith (2024)".toList] [("Smith (2024)".toList, "retracted".toList)]
    "Smith (2024)".toList).2.2.2.1 (by decide) (by decide)

/-- C2: the CheckReport counts are single-pass counts over the results:
`verified` counts the verified flags, `suspicious` the suspicious flags,
`unverified` those with neither, the all-clear boolean is true exactly when
unverified and suspicious are both zero, and
verified + suspicious + unverified = citations_found + (number of
double-flagged results). -/
theorem C2_report_counts (st : CheckerState) (text : Str) :
    (check_text st text).citations_found = (check_text st text).results.length ∧
    (check_text st text).verified =
      (check_text st text).results.countP (fun r => r.verified) ∧
    (check_text st text).suspicious =
      (check_text st text).results.countP (fun r => r.suspicious) ∧
    (check_text st text).unverified =
      (check_text st text).results.countP (fun r => !r.verified && !r.suspicious) ∧
    ((check_text st text).all_verified = true ↔
      (check_text st text).unverified = 0 ∧ (check_text st text).suspicious = 0) ∧
    (check_text st text).verified + (check_text st text).suspicious +
        (check_text st text).unverified =
      (check_text st text).citations_found +
        (check_text st text).results.countP (fun r => r.verified && r.suspicious) := by
  refine ⟨rfl, rfl, rfl, rfl, ?_, ?_⟩
  · simp [check_text]
  · exact countP_identity _

set_option maxRecDepth 40000 in
/-- C3: on the test suite's multi-format text (containing "Smith (2024)",
"Jones et al. (2023)" and "(Wilson & Chen, 2022)"), the checker finds only 2
citations — the parenthetical ampersand citation "(Wilson & Chen, 2022)"
matches none of the five patterns, so the code contradicts the test's
expectation of 3. -/
theorem C3_scenario2_citations_found :
    (check_text ⟨[], []⟩
      ("\n        Smith (2024) found significant results.\n        This was confirmed by Jones et al. (2023).\n        Earlier work (Wilson & Chen, 2022) suggested similar findings.\n        ".toList)).citations_found
      = 2 ∧
    (extract_citations
      ("\n        Smith (2024) found significant results.\n        This was confirmed by Jones et al. (2023).\n        Earlier work (Wilson & Chen, 2022) suggested similar findings.\n        ".toList)).map
        (fun r => r.normalized) =
      ["Jones et al. (2023)".toList, "Smith (2024)".toList] := by
  constructor
  · decide
  · decide

/-- C4: a knowledge base built from one correction-tier source containing only
"Smith et al. (2024)" registers both normalized forms, and checking either
"Smith et al. (2024) showed X." or "Smith (2024) showed X." yields status
VERIFIED. -/
theorem C4_both_forms_verified :
    (extract_citations_from_file "Smith et al. (2024)".toList).contains
        "Smith et al. (2024)".toList = true ∧
    (extract_citations_from_file "Smith et al. (2024)".toList).contains
        "Smith (2024)".toList = true ∧
    ((check_text ⟨extract_citations_from_file "Smith et al. (2024)".toList, []⟩
        "Smith et al. (2024) showed X.".toList).results.map (fun r => r.status) =
      ["✅ VERIFIED".toList]) ∧
    ((check_text ⟨extract_citations_from_file "Smith et al. (2024)".toList, []⟩
        "Smith (2024) showed X.".toList).results.map (fun r => r.status) =
      ["✅ VERIFIED".toList]) := by
  refine ⟨by decide, by decide, by decide, by decide⟩

/-- C5: a review-tier source is scanned if and only if it contains both the
approval glyph and (case-insensitively) "VERIFIED"; a review missing either
marker contributes nothing. -/
theorem C5_review_tier (content : Str) :
    (containsSub ['✅'] content = true ∧
        containsSub ("VERIFIED".toList) (upperStr content) = true →
      extract_verified_from_review content = extract_citations_from_file content) ∧
    (¬(containsSub ['✅'] content = true ∧
        containsSub ("VERIFIED".toList) (upperStr content) = true) →
      extract_verified_from_review content = []) := by
  constructor
  · intro h
    rw [extract_verified_from_review, if_pos (by rw [h.1, h.2]; rfl)]
  · intro h
    rw [extract_verified_from_review, if_neg (by simpa [Bool.and_eq_true] using h)]

/-- C5 witness: a review with a well-formed citation but no markers yields
nothing, while a marked review yields the full extraction. -/
theorem C5_review_tier_witness :
    extract_verified_from_review "Review of Smith et al. (2024): pending".toList = [] ∧
    extract_citations_from_file "Review of Smith et al. (2024): pending".toList ≠ [] ∧
    extract_verified_from_review "Status: ✅ VERIFIED\nSmith et al. (2024)".toList =
      extract_citations_from_file "Status: ✅ VERIFIED\nSmith et al. (2024)".toList := by
  refine ⟨(C5_review_tier _).2 (by decide), by decide, (C5_review_tier _).1 (by decide)⟩

/-- C6: the extractor's output is deduplicated by normalized key in first-seen
order: its length never exceeds the raw match count, equals the number of
distinct (author, year, et-al-flag) triples over all raw matches, and each
record is built from the first raw match carrying its key. -/
theorem C6_dedup_invariant (text : Str) :
    (extract_citations text).length ≤ (rawMatches text).length ∧
    (extract_citations text).length = ((rawMatches text).map tupleOf).toFinset.card ∧
    ∀ r ∈ extract_citations text,
      ∃ m, (rawMatches text).find? (fun m' => normalizeOf m' == r.normalized) = some m ∧
        r = recordOf m :=
  ⟨dedupAux_length_le _ _, extract_citations_length_eq text,
    fun _ hr => mem_extract_citations hr⟩

/-- C6 witness: on a text where the same work is cited in two surface forms,
two raw matches collapse to one record built from the first match. -/
theorem C6_dedup_invariant_witness :
    (extract_citations "Smith (2024) and (Smith, 2024)".toList).length ≤
      (rawMatches "Smith (2024) and (Smith, 2024)".toList).length ∧
    (rawMatches "Smith (2024) and (Smith, 2024)".toList).length = 2 ∧
    (extract_citations "Smith (2024) and (Smith, 2024)".toList).length = 1 ∧
    ∃ m, (rawMatches "Smith (2024) and (Smith, 2024)".toList).find?
          (fun m' => normalizeOf m' ==
            (⟨"Smith (2024)".toList, "Smith (2024)".toList, "Smith".toList,
              "2024".toList⟩ : CitationRecord).normalized) = some m ∧
        (⟨"Smith (2024)".toList, "Smith (2024)".toList, "Smith".toList,
          "2024".toList⟩ : CitationRecord) = recordOf m := by
  have h := C6_dedup_invariant "Smith (2024) and (Smith, 2024)".toList
  exact ⟨h.1, by decide, by decide, h.2.2 _ (by decide)⟩

/-- C7: normalization is a pure function of (author, year, et-al flag), and a
string already of the canonical shape "{Author} et al. ({Year})" or
"{Author} ({Year})" re-extracts and re-normalizes to itself (a fixed
point). -/
theorem C7_normalization :
    (∀ m1 m2 : RawMatch, m1.author = m2.author → m1.year = m2.year →
      etAlFlag m1.text = etAlFlag m2.text → normalizeOf m1 = normalizeOf m2) ∧
    ∀ a y : Str, goodAuthor a = true → goodYear y = true → ∀ f : Bool,
      extract_citations (normalizeKey a y f) =
        [⟨normalizeKey a y f, normalizeKey a y f, a, y⟩] := by
  constructor
  · intro m1 m2 ha hy hf
    rw [normalizeOf, normalizeOf, ha, hy, hf]
  · intro a y ha hy f
    exact extract_citations_key ha hy f

/-- C7 witness: both canonical shapes at a concrete author and year are fixed
points of extraction and normalization. -/
theorem C7_normalization_witness :
    extract_citations "Smith et al. (2024)".toList =
      [⟨"Smith et al. (2024)".toList, "Smith et al. (2024)".toList,
        "Smith".toList, "2024".toList⟩] ∧
    extract_citations "Smith (2024)".toList =
      [⟨"Smith (2024)".toList, "Smith (2024)".toList,
        "Smith".toList, "2024".toList⟩] := by
  constructor
  · have h := C7_normalization.2 "Smith".toList "2024".toList (by decide) (by decide) true
    have e : normalizeKey "Smith".toList "2024".toList true = "Smith et al. (2024)".toList := by
      decide
    rw [e] at h
    exact h
  · have h := C7_normalization.2 "Smith".toList "2024".toList (by decide) (by decide) false
    have e : normalizeKey "Smith".toList "2024".toList false = "Smith (2024)".toList := by
      decide
    rw [e] at h
    exact h

/-- C8: a suspicious-list entry with line "Lee et al. (2021)" and reason
"retracted" registers both normalized forms under that reason (with
"Unknown reason" as the default when absent), and checking the text
"Lee et al. (2021)" against an otherwise-empty knowledge base yields status
SUSPICIOUS with reason "retracted". -/
theorem C8_suspicious_entry :
    lookupMap (load_suspicious_citations
        [⟨"Lee et al. (2021)".toList, some "retracted".toList⟩] none)
      "Lee et al. (2021)".toList = some "retracted".toList ∧
    lookupMap (load_suspicious_citations
        [⟨"Lee et al. (2021)".toList, some "retracted".toList⟩] none)
      "Lee (2021)".toList = some "retracted".toList ∧
    ((check_text ⟨[], load_suspicious_citations
          [⟨"Lee et al. (2021)".toList, some "retracted".toList⟩] none⟩
        "Lee et al. (2021)".toList).results.map
          (fun r => (r.status, r.suspicious_reason)) =
      [("❌ SUSPICIOUS".toList, some "retracted".toList)]) ∧
    lookupMap (load_suspicious_citations [⟨"Lee et al. (2021)".toList, none⟩] none)
      "Lee (2021)".toList = some "Unknown reason".toList := by
  refine ⟨by decide, by decide, by decide, by decide⟩

/-- C9: a text with no raw pattern match extracts to the empty sequence, and
for every checker state the report has all counts zero and the all-clear flag
set; producing no citations is not an error. -/
theorem C9_no_matches (text : Str) (h : rawMatches text = []) :
    extract_citations text = [] ∧
    ∀ st : CheckerState,
      (check_text st text).citations_found = 0 ∧
      (check_text st text).verified = 0 ∧
      (check_text st text).suspicious = 0 ∧
      (check_text st text).unverified = 0 ∧
      (check_text st text).all_verified = true := by
  have hext : extract_citations text = [] := by
    rw [extract_citations, h]
    rfl
  refine ⟨hext, fun st => ?_⟩
  simp [check_text, hext]

/-- C9 witness: the test suite's citation-free sentence and the empty string
both produce an all-clear report with zero counts. -/
theorem C9_no_matches_witness :
    extract_citations
        "This is just regular text without any academic references.".toList = [] ∧
    (check_text ⟨[], []⟩
        "This is just regular text without any academic references.".toList).all_verified
      = true ∧
    extract_citations ("".toList) = [] := by
  have h1 := C9_no_matches
    "This is just regular text without any academic references.".toList (by decide)
  have h2 := C9_no_matches ("".toList) (by decide)
  exact ⟨h1.1, (h1.2 ⟨[], []⟩).2.2.2.2, h2.1⟩

/-- C10: every normalized key the extractor produces is a canonical
author-year key whose author starts with an upper-case letter, so no key ever
has the prefix "arXiv:"; hence the standalone arXiv-identifier keys the
fabrication tier inserts (all of which carry that prefix) can never mark any
result of check_text suspicious. -/
theorem C10_arxiv_unreachable (text : Str) :
    (∀ r ∈ extract_citations text,
      ("arXiv:".toList).isPrefixOf r.normalized = false ∧
      ∃ m ∈ rawMatches text,
        r.normalized = normalizeKey m.author m.year (etAlFlag m.text) ∧
          GoodAuthorShape m.author) ∧
    (∀ content id1, id1 ∈ findArxiv content →
      ("arXiv:".toList).isPrefixOf ("arXiv:".toList ++ id1) = true) ∧
    ∀ (vs : List Str) (ss : List (Str × Str)),
      (∀ p ∈ ss, ("arXiv:".toList).isPrefixOf p.1 = true) →
      ∀ r ∈ (check_text ⟨vs, ss⟩ text).results, r.suspicious = false := by
  have hkey : ∀ r ∈ extract_citations text,
      ("arXiv:".toList).isPrefixOf r.normalized = false ∧
      ∃ m ∈ rawMatches text,
        r.normalized = normalizeKey m.author m.year (etAlFlag m.text) ∧
          GoodAuthorShape m.author := by
    intro r hr
    obtain ⟨m, hm, rfl⟩ := mem_extract_citations_raw hr
    have hshape := rawMatches_author hm
    exact ⟨arxiv_not_prefix_of_key hshape, m, hm, rfl, hshape⟩
  refine ⟨hkey, fun content id1 _ => isPrefixOf_append_self _ _, ?_⟩
  intro vs ss hss r hr
  simp only [check_text, List.mem_map] at hr
  obtain ⟨c, hc, rfl⟩ := hr
  show (verify_citation ⟨vs, ss⟩ c.normalized).suspicious = false
  show containsKey ss c.normalized = false
  rcases hl : lookupMap ss c.normalized with _ | v
  · simp [containsKey, hl]
  · exfalso
    obtain ⟨p, hp, hpk⟩ := lookupMap_eq_some_imp hl
    have := hss p hp
    rw [hpk] at this
    rw [(hkey c hc).1] at this
    exact Bool.false_ne_true this

/-- C10 witness: with a suspicious map holding only an arXiv-identifier key,
a checked citation is not suspicious, and the arXiv loop's keys do carry the
prefix. -/
theorem C10_arxiv_unreachable_witness :
    ((⟨⟨"Smith (2024)".toList, false, false, none, "❓ UNVERIFIED".toList⟩,
        "Smith (2024)".toList, "Smith".toList, "2024".toList⟩ : ResultRow).suspicious
      = false) ∧
    ("arXiv:".toList).isPrefixOf ("arXiv:".toList ++ "2301.99999".toList) = true := by
  have h := C10_arxiv_unreachable "Smith (2024)".toList
  refine ⟨?_, h.2.1 "bogus arXiv:2301.99999 cited".toList "2301.99999".toList (by decide)⟩
  exact h.2.2 [] [("arXiv:1234.5678".toList, "FABRICATED arXiv ID (404)".toList)]
    (by decide) _ (by decide)

end CitationChecker

section Sanity
open CitationChecker
example :
    (extract_citations "Smith et al. (2024)".toList).map (fun r => r.normalized) =
      ["Smith et al. (2024)".toList] := by decide
example :
    (extract_citations "work (Wilson & Chen, 2022) suggested".toList) = [] := by decide
example :
    (extract_citations "Wilson & Chen (2022) suggested".toList).map
        (fun r => r.normalized) =
      ["Wilson (2022)".toList, "Chen (2022)".toList] := by decide
example :
    (check_text ⟨[], []⟩
      "According to Richardson et al. (2023), Earth has crossed 6 of 9 planetary boundaries.".toList).citations_found
      = 1 := by decide
example :
    (check_text ⟨extract_citations_from_file "Smith et al. (2024)".toList, []⟩
      "Smith (2024) showed X.".toList).results.map (fun r => r.status) =
      ["✅ VERIFIED".toList] := by decide
example :
    lookupMap (load_suspicious_citations [⟨"Lee et al. (2021)".toList, some "retracted".toList⟩] none)
      "Lee (2021)".toList = some "retracted".toList := by decide
example :
    findArxiv "bogus arXiv:2301.99999 cited".toList = ["2301.99999".toList] := by decide
end Sanity
